import Mathlib

/-!
Verification development for the Fin-AI stock-analysis repository.

The definitions below are a shallow embedding of the extraction and
normalisation routines of `backend/src/browser_agent.py`,
`backend/src/reddit_analyzer.py` and `backend/src/data_processor.py`.
Python floats are modelled by rationals (all values handled by the code are
decimal literals scaled by powers of ten, on which Python float arithmetic
agrees with exact rational arithmetic for every equality stated here).
Browser/DOM interactions are modelled as oracles: a page is a record of the
outcomes each `query_selector` / `text_content` / attribute call would
produce, including the possibility of raising.
-/

namespace FinAI

/-- Whitespace test used to model Python `str.strip` on the ASCII inputs
handled by the scraper. -/
def isSpace (c : Char) : Bool := c.isWhitespace

/-- Python `str.strip` modelled on a character list. -/
def stripList (l : List Char) : List Char :=
  ((l.dropWhile isSpace).reverse.dropWhile isSpace).reverse

/-- Python `str.strip`. -/
def pyStrip (s : String) : String := ⟨stripList s.data⟩

/-- Character membership in a string, modelling Python `c in s` for a single
character. -/
def hasChar (c : Char) (s : String) : Bool := s.data.any (fun d => d == c)

/-- Numeric value of a digit run, used to model Python `float` on matched
digit groups. -/
def digitsToNat (l : List Char) : Nat :=
  l.foldl (fun a c => 10 * a + (c.toNat - 48)) 0

/-- Value of a decimal literal with integer part `ip` and fractional part
`fp` (both digit runs), as Python `float` parses the matched group. -/
def litQ (ip fp : List Char) : ℚ :=
  (digitsToNat ip : ℚ) + (digitsToNat fp : ℚ) / (10 : ℚ) ^ fp.length

/-- Splits a character list into its maximal leading digit run and the rest,
modelling greedy `[0-9]+` / `[0-9]*` matching. -/
def takeDigits : List Char → List Char × List Char
  | [] => ([], [])
  | c :: cs =>
    if c.isDigit then (c :: (takeDigits cs).1, (takeDigits cs).2)
    else ([], c :: cs)

/-- Leftmost search for the pattern `[0-9]+\.?[0-9]*` (the numeric-extraction
regex of `_parse_financial_value`), returning the float value of the match.
The pattern needs no backtracking: greedy digit runs and the optional dot are
forced. Note the pattern has no leading minus sign. `numFracPart` consumes
the optional `\.?[0-9]*` part after the mandatory digit run. -/
def numFracPart : List Char → List Char
  | '.' :: r2 => (takeDigits r2).1
  | _ => []

/-- Leftmost-search worker continued below. -/
def numSearch : List Char → Option ℚ
  | [] => none
  | c :: cs =>
    if c.isDigit then
      some (litQ (takeDigits (c :: cs)).1 (numFracPart (takeDigits (c :: cs)).2))
    else numSearch cs

/-- Does the needle start the haystack (helper for substring occurrence). -/
def listStartsWith : List Char → List Char → Bool
  | [], _ => true
  | _ :: _, [] => false
  | n :: ns, h :: hs => n == h && listStartsWith ns hs

/-- Continuation of the parenthesised-percentage match after the mandatory
digit run `d1`: an optional dot with a further digit run, then the literal
`%)`. Mirrors the forced greedy matching of `\.?[0-9]*\%\)`. -/
def pctTail (d1 : List Char) (rest : List Char) : Option ℚ :=
  if listStartsWith ['%', ')'] rest then some (litQ d1 [])
  else
    match rest with
    | '.' :: r2 =>
      if listStartsWith ['%', ')'] (takeDigits r2).2 then some (litQ d1 (takeDigits r2).1)
      else none
    | _ => none

/-- Attempted match of `\(([0-9]+\.?[0-9]*)\%\)` at the head of the list
(the parenthesised-percentage regex of `_parse_financial_value`). -/
def pctMatchAt (l : List Char) : Option ℚ :=
  match l with
  | [] => none
  | c :: rest =>
    if c = '(' then
      if (takeDigits rest).1.isEmpty then none
      else pctTail (takeDigits rest).1 (takeDigits rest).2
    else none

/-- Leftmost search for the parenthesised-percentage pattern, as
`re.search` performs it. -/
def pctSearch : List Char → Option ℚ
  | [] => none
  | c :: cs =>
    match pctMatchAt (c :: cs) with
    | some q => some q
    | none => pctSearch cs

/-- Removal of the formatting characters stripped by
`text.replace(",", "").replace("$", "").replace("%", "")`. -/
def removeFmtChars (l : List Char) : List Char :=
  l.filter (fun c => !(c == ',' || c == '$' || c == '%'))

/-- Detection of the trailing magnitude suffix (`B`/`M`/`K`/`T`) of
`_parse_financial_value`, returning the multiplier and the text with the
suffix stripped. The `elif` chain tests the single last character, so the
four cases are mutually exclusive. -/
def splitSuffix (l : List Char) : ℚ × List Char :=
  if l.getLast? = some 'B' then (1000000000, l.dropLast)
  else if l.getLast? = some 'M' then (1000000, l.dropLast)
  else if l.getLast? = some 'K' then (1000, l.dropLast)
  else if l.getLast? = some 'T' then (1000000000000, l.dropLast)
  else (1, l)

/-- Model of `BrowserAgent._parse_financial_value` (browser_agent.py,
lines 500-539): placeholder check, parenthesised-percentage branch, currency
and separator stripping, magnitude suffix, then the first numeric substring.
The body's `try` never reaches its `except`: every `float()` call is applied
to a matched group of the numeric pattern, which is always a valid literal. -/
def parseFinancialValue (text : String) : Option ℚ :=
  if text = "" || pyStrip text = "--" || pyStrip text = "N/A" || pyStrip text = "" then
    none
  else if hasChar '(' text && hasChar '%' text && (pctSearch text.data).isSome then
    pctSearch text.data
  else
    let cleaned := stripList (removeFmtChars text.data)
    let sm := splitSuffix cleaned
    match numSearch sm.2 with
    | some q => some (q * sm.1)
    | none => none

/-- Python `str.lower` on the ASCII strings handled by the scraper. -/
def pyLower (s : String) : String := ⟨s.data.map Char.toLower⟩

/-- Python `str.upper` on the ASCII strings handled by the scraper. -/
def pyUpper (s : String) : String := ⟨s.data.map Char.toUpper⟩

/-- Worker for `pyTitle`: the flag records whether the previous character was
alphabetic. -/
def pyTitleGo : Bool → List Char → List Char
  | _, [] => []
  | prevAlpha, c :: cs =>
    if c.isAlpha then
      (if prevAlpha then c.toLower else c.toUpper) :: pyTitleGo true cs
    else c :: pyTitleGo false cs

/-- Python `str.title` on the ASCII strings handled by the scraper: the first
letter of every alphabetic run is upper-cased, the rest lower-cased. -/
def pyTitle (s : String) : String := ⟨pyTitleGo false s.data⟩

/-- Python `str.replace` for single characters, used for
`metric.replace("_", " ")` and `metric.replace("_", "-")`. -/
def mapChar (a b : Char) (s : String) : String :=
  ⟨s.data.map (fun c => if c == a then b else c)⟩

/-- Python `needle in haystack` substring test. -/
def subOcc (n : List Char) : List Char → Bool
  | [] => n.isEmpty
  | c :: cs => listStartsWith n (c :: cs) || subOcc n cs

/-- Python `needle in haystack` on strings. -/
def pyIn (needle haystack : String) : Bool := subOcc needle.data haystack.data

/-- Python `s.split(sep)` for a one-character separator, as used on the
52-week-range text (`.split("-")`). -/
def splitOnChar (sep : Char) : List Char → List (List Char)
  | [] => [[]]
  | c :: cs =>
    let r := splitOnChar sep cs
    if c == sep then [] :: r
    else
      match r with
      | h :: t => (c :: h) :: t
      | [] => [[c]]

/-- A value stored in the `fundamentals` Python dict: `None`, a string
(for `days_range` / `earnings_date`), or a float. -/
inductive PyObj where
  | pynone
  | str (s : String)
  | num (q : ℚ)
deriving DecidableEq, Repr

/-- The `fundamentals` dict, as an insertion-ordered association list
(Python dict iteration order). -/
abbrev PyDict := List (String × PyObj)

/-- Python dict lookup; `none` models `metric not in fundamentals`. -/
def dictGet (d : PyDict) (k : String) : Option PyObj :=
  (d.find? (fun kv => kv.1 == k)).map (fun kv => kv.2)

/-- Python dict assignment `d[k] = v`: updates in place if the key exists,
otherwise appends (insertion order preserved). -/
def dictSet (d : PyDict) (k : String) (v : PyObj) : PyDict :=
  if d.any (fun kv => kv.1 == k) then
    d.map (fun kv => if kv.1 == k then (k, v) else kv)
  else d ++ [(k, v)]

/-- Outcome of a `query_selector` (or `wait_for_selector`) call followed by
`text_content()`: the call raised, found no element, or found an element
whose text content is the given optional string. A raise from either of the
two awaits lands in the same `except` handler, so both are modelled by
`raise`. -/
inductive QRes where
  | raise
  | noElem
  | elem (text : Option String)
deriving DecidableEq, Repr

/-- Outcome of processing one table row: any exception inside the per-row
`try` (cells query or `text_content`) is modelled by `raise` — the handler
is `except: continue` in every case — otherwise the row yields the text
contents of its `td, th` cells. -/
inductive RowRes where
  | raise
  | cells (c : List (Option String))
deriving DecidableEq, Repr

/-- Oracle for all DOM interactions `_extract_fundamentals` performs:
`q` gives the outcome of each single-element query by selector string,
`statsSection` the outcome of looking up `div[data-testid="quote-statistics"]`
(raise, or whether it was found), and `statsRows` / `pageRows` the row sets
of the two `query_selector_all` calls of the table fallback. -/
structure FundPage where
  q : String → QRes
  statsSection : Except Unit Bool
  statsRows : Except Unit (List RowRes)
  pageRows : Except Unit (List RowRes)

/-- The placeholder list `["--", "N/A", "", "None"]` of the selector loops
(browser_agent.py lines 297, 336 and 419). -/
def placeholders4 : List String := ["--", "N/A", "", "None"]

/-- The metrics kept as raw strings (`days_range`, `earnings_date`). -/
def stringMetrics : List String := ["days_range", "earnings_date"]

/-- The `metrics_to_extract` table of `_extract_fundamentals`
(browser_agent.py lines 235-286), in declaration order. -/
def metricsToExtract : List (String × List String) :=
  [("previous_close",
    ["div[data-testid=\"quote-statistics\"] td:has-text(\"Previous Close\") + td",
     "fin-streamer[data-field=\"regularMarketPreviousClose\"]",
     "[data-test=\"PREV_CLOSE-value\"]"]),
   ("open",
    ["div[data-testid=\"quote-statistics\"] td:has-text(\"Open\") + td",
     "fin-streamer[data-field=\"regularMarketOpen\"]",
     "[data-test=\"OPEN-value\"]"]),
   ("days_range",
    ["div[data-testid=\"quote-statistics\"] td:has-text(\"Day\x27s Range\") + td",
     "fin-streamer[data-field=\"regularMarketDayRange\"]",
     "[data-test=\"DAYS_RANGE-value\"]"]),
   ("volume",
    ["div[data-testid=\"quote-statistics\"] td:has-text(\"Volume\") + td",
     "fin-streamer[data-field=\"regularMarketVolume\"]",
     "[data-test=\"TD_VOLUME-value\"]"]),
   ("avg_volume",
    ["div[data-testid=\"quote-statistics\"] td:has-text(\"Avg. Volume\") + td",
     "fin-streamer[data-field=\"averageVolume\"]",
     "[data-test=\"AVERAGE_VOLUME_3MONTH-value\"]"]),
   ("market_cap",
    ["div[data-testid=\"quote-statistics\"] td:has-text(\"Market Cap\") + td",
     "fin-streamer[data-field=\"marketCap\"]",
     "[data-test=\"MARKET_CAP-value\"]"]),
   ("beta",
    ["div[data-testid=\"quote-statistics\"] td:has-text(\"Beta\") + td",
     "fin-streamer[data-field=\"beta\"]",
     "[data-test=\"BETA_5Y-value\"]"]),
   ("pe_ratio",
    ["div[data-testid=\"quote-statistics\"] td:has-text(\"PE Ratio\") + td",
     "fin-streamer[data-field=\"trailingPE\"]",
     "[data-test=\"PE_RATIO-value\"]"]),
   ("earnings_date",
    ["div[data-testid=\"quote-statistics\"] td:has-text(\"Earnings Date\") + td",
     "fin-streamer[data-field=\"earningsDate\"]",
     "[data-test=\"EARNINGS_DATE-value\"]"]),
   ("target_est",
    ["div[data-testid=\"quote-statistics\"] td:has-text(\"1y Target Est\") + td",
     "fin-streamer[data-field=\"targetMeanPrice\"]",
     "[data-test=\"ONE_YEAR_TARGET_PRICE-value\"]"])]

/-- The per-metric selector loop of `_extract_fundamentals`
(browser_agent.py lines 291-318, and identically 331-352 for the flexible
CSS fallback selectors): selectors are tried in order; a hit whose text is
truthy and whose stripped text is not a placeholder is stored — directly
for the two string metrics, through `_parse_financial_value` for the rest,
where a `None` parse does *not* stop the loop. -/
def primStep (p : FundPage) (metric : String) (d : PyDict) : List String → PyDict
  | [] => d
  | s :: rest =>
    match p.q s with
    | QRes.elem (some t) =>
      if t != "" && !(placeholders4.contains (pyStrip t)) then
        if stringMetrics.contains metric then dictSet d metric (PyObj.str (pyStrip t))
        else
          match parseFinancialValue (pyStrip t) with
          | some v => dictSet d metric (PyObj.num v)
          | none => primStep p metric d rest
      else primStep p metric d rest
    | _ => primStep p metric d rest

/-- The flexible CSS fallback selectors built from the metric name
(browser_agent.py lines 323-329). -/
def cssFallbackSelectors (metric : String) : List String :=
  ["[data-testid*=\"" ++ metric ++ "\"]",
   "[data-test*=\"" ++ pyUpper metric ++ "\"]",
   "[data-field*=\"" ++ metric ++ "\"]",
   "td[title*=\"" ++ pyTitle (mapChar '_' ' ' metric) ++ "\"]",
   "span[title*=\"" ++ pyTitle (mapChar '_' ' ' metric) ++ "\"]"]

/-- The whole selector-based phase: for each metric the primary selector
list, then — when the metric is absent or `None` — the flexible CSS
selectors (browser_agent.py lines 289-352). -/
def selectorPhase (p : FundPage) : PyDict :=
  metricsToExtract.foldl
    (fun d ms =>
      let d1 := primStep p ms.1 d ms.2
      if dictGet d1 ms.1 = none || dictGet d1 ms.1 = some PyObj.pynone then
        primStep p ms.1 d1 (cssFallbackSelectors ms.1)
      else d1)
    []

/-- The computation `missing_metrics = [k for k, v in fundamentals.items()
if v is None]` (browser_agent.py line 360). -/
def missingMetrics (d : PyDict) : List String :=
  (d.filter (fun kv => kv.2 == PyObj.pynone)).map (fun kv => kv.1)

/-- The metric-specific label synonyms added by the `elif` chain of the
table fallback (browser_agent.py lines 395-415). -/
def extraVariations : String → List String
  | "previous_close" => ["previous close", "prev close"]
  | "days_range" => ["day\x27s range", "days range"]
  | "avg_volume" => ["avg. volume", "average volume"]
  | "market_cap" => ["market cap", "market cap (intraday)"]
  | "pe_ratio" => ["pe ratio (ttm)", "p/e ratio", "pe ratio"]
  | "target_est" => ["1y target est", "target price"]
  | "beta" => ["beta (5y monthly)", "beta"]
  | "open" => ["open"]
  | "volume" => ["volume"]
  | "earnings_date" => ["earnings date"]
  | _ => []

/-- The full `metric_variations` list for a metric
(browser_agent.py lines 389-415). -/
def metricVariations (metric : String) : List String :=
  [mapChar '_' ' ' metric, pyTitle (mapChar '_' ' ' metric), mapChar '_' '-' metric]
    ++ extraVariations metric

/-- The variation loop of the table fallback for one metric on one row
(browser_agent.py lines 417-430): the first variation that occurs in the
lower-cased first cell and finds a non-placeholder second cell stores the
value (string metrics directly, numeric metrics only when the parse
succeeds) and breaks; a matching variation with a placeholder second cell
does not break. -/
def scanVariations (firstCell second metric : String) (d : PyDict) : List String → PyDict
  | [] => d
  | v :: vs =>
    if pyIn (pyLower v) firstCell then
      if !(placeholders4.contains second) then
        if stringMetrics.contains metric then dictSet d metric (PyObj.str second)
        else
          match parseFinancialValue second with
          | some val => dictSet d metric (PyObj.num val)
          | none => d
      else scanVariations firstCell second metric d vs
    else scanVariations firstCell second metric d vs

/-- One row of the table fallback (browser_agent.py lines 376-432): rows
raising, rows with fewer than two cells, and rows whose first or second cell
text is falsy are skipped; otherwise every missing metric is matched against
the stripped lower-cased first cell. -/
def processRow (missing : List String) (d : PyDict) : RowRes → PyDict
  | RowRes.raise => d
  | RowRes.cells c =>
    match c with
    | some f :: some s :: _ =>
      if f != "" && s != "" then
        missing.foldl
          (fun d m => scanVariations (pyLower (pyStrip f)) (pyStrip s) m d (metricVariations m))
          d
      else d
    | _ => d

/-- The rows the table fallback iterates over: the rows of the statistics
section when it is found, else every `table tr, div tr` row of the page;
`none` when an exception escapes to the handler at line 433. -/
def FundPage.allRows (p : FundPage) : Option (List RowRes) :=
  match p.statsSection with
  | Except.error _ => none
  | Except.ok true =>
    match p.statsRows with
    | Except.error _ => none
    | Except.ok r => some r
  | Except.ok false =>
    match p.pageRows with
    | Except.error _ => none
    | Except.ok r => some r

/-- The table-fallback phase (browser_agent.py lines 359-434): runs only
when `missing_metrics` is non-empty, and scans all rows for the missing
metrics. -/
def tablePhase (p : FundPage) (d : PyDict) : PyDict :=
  let missing := missingMetrics d
  if missing.isEmpty then d
  else
    match p.allRows with
    | none => d
    | some rows => rows.foldl (fun d r => processRow missing d r) d

/-- The `fundamentals` dict as it stands after the selector phase and the
table fallback. -/
def extractFundDict (p : FundPage) : PyDict := tablePhase p (selectorPhase p)

/-- The 52-week range model (`models.py`): both fields required once
constructed. -/
structure FiftyTwoWeekRange where
  high : ℚ
  low : ℚ
deriving DecidableEq, Repr

/-- The range-construction body of `_extract_fundamentals`
(browser_agent.py lines 450-459) applied to one element text: requires a
truthy text containing a hyphen, splits the stripped text on every hyphen,
demands exactly two parts, normalises both through
`_parse_financial_value`, and constructs the range only when both results
are truthy (`if low and high` — so `None` and `0.0` both fail). -/
def parseRangeText : Option String → Option FiftyTwoWeekRange
  | none => none
  | some t =>
    if t != "" && subOcc ['-'] t.data then
      match (splitOnChar '-' (pyStrip t).data).map (fun l => String.mk l) with
      | [p0, p1] =>
        match parseFinancialValue (pyStrip p0), parseFinancialValue (pyStrip p1) with
        | some lo, some hi =>
          if lo != 0 && hi != 0 then some { high := hi, low := lo } else none
        | _, _ => none
      | _ => none
    else none

/-- The 52-week-range selector list (browser_agent.py lines 440-444). -/
def rangeSelectors : List String :=
  ["div[data-testid=\"quote-statistics\"] td:has-text(\"52 Week Range\") + td",
   "div[data-testid=\"quote-statistics\"] td:has-text(\"52-Week Range\") + td",
   "[data-test=\"FIFTY_TWO_WK_RANGE-value\"]"]

/-- The 52-week-range selector loop (browser_agent.py lines 446-461): the
first selector whose element text yields a constructed range wins; raises
and failed constructions just move to the next selector. -/
def rangeLoop (p : FundPage) : List String → Option FiftyTwoWeekRange
  | [] => none
  | s :: rest =>
    match p.q s with
    | QRes.elem t =>
      match parseRangeText t with
      | some r => some r
      | none => rangeLoop p rest
    | _ => rangeLoop p rest

/-- Modelled from the spec (section 4.1 field-extractor contract, quoted by
the claim): the first text content over the selector list that is non-empty
and not a known placeholder. Used only to compare the claimed behaviour with
the code's `primStep`. -/
def specFirstValidText (p : FundPage) (sels : List String) : Option String :=
  sels.findSome? (fun s =>
    match p.q s with
    | QRes.elem (some t) =>
      if t != "" && !(placeholders4.contains (pyStrip t)) then some (pyStrip t) else none
    | _ => none)

/-- The positive keyword list of `_parse_sentiment_fallback`
(reddit_analyzer.py line 332). -/
def positiveWords : List String :=
  ["bullish", "buy", "positive", "good", "great", "strong", "up", "moon", "rocket"]

/-- The negative keyword list of `_parse_sentiment_fallback`
(reddit_analyzer.py line 333). -/
def negativeWords : List String :=
  ["bearish", "sell", "negative", "bad", "weak", "down", "crash", "dump"]

/-- Result record of the sentiment fallback (the dict it returns). -/
structure SentimentRes where
  sentiment : String
  confidence : ℚ
  postsCount : ℕ
  keyPoints : List String
  summary : String
deriving DecidableEq, Repr

/-- Count of listed keywords occurring in the lower-cased text
(`sum(1 for word in words if word in text_lower)`). -/
def keywordCount (words : List String) (textLower : String) : ℕ :=
  (words.filter (fun w => pyIn w textLower)).length

/-- Python `f"{q:.1f}"` for the non-negative multiples of 1/10 the fallback
produces as confidences. -/
def fmtTenth (q : ℚ) : String :=
  let t := (q * 10).floor.toNat
  toString (t / 10) ++ "." ++ toString (t % 10)

/-- Model of `RedditSentimentAnalyzer._parse_sentiment_fallback`
(reddit_analyzer.py lines 324-351): keyword counts over the lower-cased
text, majority label with ties neutral, confidence
`min(0.8, 0.5 + diff * 0.1)`, posts count `text.count("\n") // 3`. -/
def parseSentimentFallback (text : String) : SentimentRes :=
  let textLower := pyLower text
  let pc := keywordCount positiveWords textLower
  let nc := keywordCount negativeWords textLower
  let sc : String × ℚ :=
    if pc > nc then ("positive", min 0.8 (0.5 + ((pc : ℚ) - (nc : ℚ)) * 0.1))
    else if nc > pc then ("negative", min 0.8 (0.5 + ((nc : ℚ) - (pc : ℚ)) * 0.1))
    else ("neutral", 0.5)
  { sentiment := sc.1
    confidence := sc.2
    postsCount := (text.data.count '\n') / 3
    keyPoints :=
      ["Detected " ++ toString pc ++ " positive and " ++ toString nc ++ " negative indicators"]
    summary :=
      "Fallback analysis shows " ++ sc.1 ++ " sentiment with " ++ fmtTenth sc.2
        ++ " confidence" }

/-- A collected news item (title and resolved URL; `source` is the constant
"Yahoo Finance" and `published_date` the extraction wall-clock time, neither
of which the collected-item logic depends on). -/
structure NewsL where
  title : String
  url : String
deriving DecidableEq, Repr

/-- Outcome of the per-article link extraction of `_extract_news`: the
article's `try` raised, no link selector matched, or a link element was
found with the given `text_content()` and `href` attribute. -/
inductive ArtRes where
  | raise
  | noLink
  | link (title : Option String) (href : Option String)
deriving DecidableEq, Repr

/-- URL resolution of `_extract_news` (line 611): relative hrefs are
resolved against the site origin. -/
def resolveUrl (href : String) : String :=
  if href.startsWith "http" then href else "https://finance.yahoo.com" ++ href

/-- The first collection pass of `_extract_news` (browser_agent.py lines
579-626): stops as soon as five items are collected, skips articles that
raise, have no link, or have a falsy title or href, and appends the
stripped title when it is non-empty. -/
def collectFirst : List ArtRes → List NewsL → List NewsL
  | [], items => items
  | a :: rest, items =>
    if 5 ≤ items.length then items
    else
      match a with
      | ArtRes.link (some t) (some h) =>
        if t != "" && h != "" && pyStrip t != "" then
          collectFirst rest (items ++ [{ title := pyStrip t, url := resolveUrl h }])
        else collectFirst rest items
      | _ => collectFirst rest items

/-- The scroll-and-retry pass of `_extract_news` (browser_agent.py lines
645-674) over the articles that appeared after scrolling: same five-item
stop, and an item is appended only when no already-collected item has the
same title (`any(item.title == title.strip() ...)`). -/
def collectRetry : List ArtRes → List NewsL → List NewsL
  | [], items => items
  | a :: rest, items =>
    if 5 ≤ items.length then items
    else
      match a with
      | ArtRes.link (some t) (some h) =>
        if t != "" && h != "" then
          if items.any (fun item => item.title == pyStrip t) then collectRetry rest items
          else collectRetry rest (items ++ [{ title := pyStrip t, url := resolveUrl h }])
        else collectRetry rest items
      | _ => collectRetry rest items

/-- Model of `_extract_news` restricted to the collection logic: `arts1` are
the articles found by the first matching article selector (an empty list
models the early `return []`), `arts2` the extra articles
`additional_articles[len(articles):]` processed after the single scroll
(empty when scrolling revealed nothing). -/
def extractNews (arts1 arts2 : List ArtRes) : List NewsL :=
  match arts1 with
  | [] => []
  | _ =>
    let items := collectFirst arts1 []
    if items.length < 5 then collectRetry arts2 items else items

/-- The Python error that a division by zero would raise. -/
inductive PyErr where
  | zeroDiv
deriving DecidableEq, Repr

/-- Python division on floats: raises `ZeroDivisionError` on a zero
divisor. -/
def pyDiv (a b : ℚ) : Except PyErr ℚ :=
  if b = 0 then Except.error PyErr.zeroDiv else Except.ok (a / b)

/-- The position-in-52-week-range computation of
`calculate_valuation_metrics` (data_processor.py lines 142-146):
`(price - low) / (high - low) if high > low else 0`, with the division
modelled as Python's raising division. -/
def positionInRange (price : ℚ) (r : FiftyTwoWeekRange) : Except PyErr ℚ :=
  if r.high > r.low then pyDiv (price - r.low) (r.high - r.low) else Except.ok 0

/-- Python `float()` applied to a string over the characters `0-9`, `.`,
`-` (the alphabet left by `_safe_float`'s `re.sub(r"[^0-9.-]", "", ...)`):
an optional leading minus, at least one digit, at most one dot, nothing
else; `None` models the `ValueError` the caller catches. -/
def parseFloatBody (l : List Char) : Option ℚ :=
  let p1 := takeDigits l
  match p1.2 with
  | [] => if p1.1.isEmpty then none else some (litQ p1.1 [])
  | '.' :: r =>
    let p2 := takeDigits r
    if !p2.2.isEmpty then none
    else if p1.1.isEmpty && p2.1.isEmpty then none
    else some (litQ p1.1 p2.1)
  | _ => none

/-- Python `float()` with the optional leading minus sign. -/
def pyFloat : List Char → Option ℚ
  | '-' :: rest => (parseFloatBody rest).map (fun q => -q)
  | l => parseFloatBody l

/-- Model of `BrowserAgent._safe_float` on strings (browser_agent.py lines
734-747): strips every character outside `[0-9.-]` (the preceding
`.replace(",", "")` and the callers' `+`/`%`/parenthesis replacements are
subsumed by this filter), rejects `""` and `"--"`, then parses as a Python
float, with `ValueError` mapped to `None`. -/
def safeFloat (s : String) : Option ℚ :=
  let cleaned := s.data.filter (fun c => c.isDigit || c == '.' || c == '-')
  if cleaned = [] || cleaned = ['-', '-'] then none else pyFloat cleaned

/-- Model of `BrowserAgent._extract_price_from_html` (browser_agent.py
lines 749-767), parameterised by the first `re.findall` group each of the
three price patterns produces on the page HTML (`none` meaning no match):
the first pattern with a match wins, commas are stripped from the group and
the result parsed as a float; any failure (no match anywhere, or a group
`float()` rejects) yields 0.0 via the surrounding `try`/`except`. -/
def extractPriceFromHtml (ms : List (Option String)) : ℚ :=
  match ms.findSome? (fun m => m) with
  | some g =>
    match pyFloat (g.data.filter (fun c => !(c == ','))) with
    | some q => q
    | none => 0
  | none => 0

/-- Oracle for the DOM interactions of `_extract_basic_info`: the price
`wait_for_selector`+`text_content` outcome, the `page.content()` outcome
(carrying the regex-match observations of the three fallback price
patterns), the two change queries and the `h1` query. -/
structure BasicPage where
  priceWait : QRes
  content : Except Unit (List (Option String))
  changeQ : QRes
  pctQ : QRes
  h1Q : QRes

/-- The stock-price record of `models.py` (`last_updated` is the extraction
wall-clock time, which nothing verified here depends on). -/
structure StockPriceL where
  current_price : ℚ
  change : ℚ
  change_percent : ℚ
  currency : String
deriving DecidableEq, Repr

/-- The dict `_extract_basic_info` returns. -/
structure BasicRes where
  company_name : String
  price : StockPriceL
deriving DecidableEq, Repr

/-- The record the outer `except` of `_extract_basic_info` returns
(browser_agent.py lines 208-219). -/
def defaultBasic (ticker : String) : BasicRes :=
  { company_name := ticker
    price := { current_price := 0, change := 0, change_percent := 0, currency := "USD" } }

/-- Python `x or 0.0` on an optional float: `None` and `0.0` are falsy. -/
def orZero : Option ℚ → ℚ
  | none => 0
  | some q => if q = 0 then 0 else q

/-- The price part of `_extract_basic_info` (lines 138-147): a found
element with text goes through `_safe_float`; a timeout, a missing element
or a `None` text (whose `.replace` raises `AttributeError`) all land in the
inner `except` and fall back to `page.content()` +
`_extract_price_from_html`; a raise of `page.content()` itself escapes to
the outer handler. -/
def priceVal (p : BasicPage) : Except Unit (Option ℚ) :=
  match p.priceWait with
  | QRes.elem (some t) => Except.ok (safeFloat t)
  | _ =>
    match p.content with
    | Except.error _ => Except.error ()
    | Except.ok m => Except.ok (some (extractPriceFromHtml m))

/-- The change/change-percent block of `_extract_basic_info` (lines
149-181): both values start at 0, each found element's text goes through
`_safe_float`, and any raise inside the block — including the
`AttributeError` of `.replace` on a `None` text — resets both to 0. -/
def changeBlock (chQ pctQ : QRes) : Option ℚ × Option ℚ :=
  let res : Except Unit (Option ℚ × Option ℚ) :=
    match chQ, pctQ with
    | QRes.raise, _ => Except.error ()
    | _, QRes.raise => Except.error ()
    | QRes.elem none, _ => Except.error ()
    | _, QRes.elem none => Except.error ()
    | chR, pctR =>
      let c : Option ℚ :=
        match chR with
        | QRes.elem (some t) => safeFloat t
        | _ => some 0
      match pctR with
      | QRes.elem (some t) => Except.ok (c, safeFloat t)
      | _ => Except.ok (c, some 0)
  match res with
  | Except.error _ => (some 0, some 0)
  | Except.ok v => v

/-- The company-name block of `_extract_basic_info` (lines 183-192): the
`h1` text is split on the first `(` and stripped when it is truthy and
contains one; every failure leaves the ticker. -/
def companyName (ticker : String) (h1Q : QRes) : String :=
  match h1Q with
  | QRes.elem (some txt) =>
    if txt != "" && hasChar '(' txt then
      pyStrip (String.mk ((splitOnChar '(' txt.data).headD []))
    else ticker
  | _ => ticker

/-- The body of `_extract_basic_info` inside the outer `try` (lines
130-206). The final `logger.info` formats `change_percent` with `:+.2f`,
which raises `TypeError` when `_safe_float` returned `None` for it — after
the price record was built, so the built record is discarded and the outer
handler answers. -/
def extractBasicInfoInner (p : BasicPage) (ticker : String) : Except Unit BasicRes :=
  match priceVal p with
  | Except.error _ => Except.error ()
  | Except.ok cp =>
    let chp := changeBlock p.changeQ p.pctQ
    let r : BasicRes :=
      { company_name := companyName ticker p.h1Q
        price :=
          { current_price := orZero cp, change := orZero chp.1,
            change_percent := orZero chp.2, currency := "USD" } }
    match chp.2 with
    | none => Except.error ()
    | some _ => Except.ok r

/-- Model of `BrowserAgent._extract_basic_info` (browser_agent.py lines
128-219): the outer `except` replaces any escaped exception by the default
record. -/
def extractBasicInfo (p : BasicPage) (ticker : String) : BasicRes :=
  match extractBasicInfoInner p ticker with
  | Except.ok r => r
  | Except.error _ => defaultBasic ticker


/-- Full numeric-literal test: does the whole character list have the form
`[0-9]+(\.[0-9]*)?` (exactly a match of the numeric-extraction pattern)? -/
def isNumLit (l : List Char) : Bool :=
  !(takeDigits l).1.isEmpty &&
    ((takeDigits l).2.isEmpty ||
      ((takeDigits l).2.head? = some '.' && (takeDigits ((takeDigits l).2.tail)).2.isEmpty))

/-- The value a single selector contributes to a numeric metric in the
selector loop: the parsed stripped text of a found, truthy, non-placeholder
element. -/
def numericHit (p : FundPage) (s : String) : Option ℚ :=
  match p.q s with
  | QRes.elem (some t) =>
    if t != "" && !(placeholders4.contains (pyStrip t)) then
      parseFinancialValue (pyStrip t)
    else none
  | _ => none

/-- The retry-pass de-duplication invariant: every element of the second
list has a title different from all elements already seen, accumulated in
order. -/
def FreshFrom (seen : List NewsL) : List NewsL → Prop
  | [] => True
  | x :: xs => (∀ y ∈ seen, y.title ≠ x.title) ∧ FreshFrom (seen ++ [x]) xs

/-- A page on which every single-element query fails but whose statistics
section contains the row `["P/E Ratio (TTM)", "18.4"]` — the scenario of
the table-fallback claim. -/
def pageC1 : FundPage :=
  { q := fun _ => QRes.noElem
    statsSection := Except.ok true
    statsRows := Except.ok [RowRes.cells [some "P/E Ratio (TTM)", some "18.4"]]
    pageRows := Except.ok [] }

/-- The first `pe_ratio` selector of `metrics_to_extract`. -/
def peSel1 : String :=
  "div[data-testid=\"quote-statistics\"] td:has-text(\"PE Ratio\") + td"

/-- The second `pe_ratio` selector of `metrics_to_extract`. -/
def peSel2 : String := "fin-streamer[data-field=\"trailingPE\"]"

/-- The third `pe_ratio` selector of `metrics_to_extract`. -/
def peSel3 : String := "[data-test=\"PE_RATIO-value\"]"

/-- The `pe_ratio` selector list of `metrics_to_extract`. -/
def peSelList : List String := [peSel1, peSel2, peSel3]

/-- A page whose first `pe_ratio` selector yields the non-placeholder but
unparseable text "abc" and whose second yields "55.3". -/
def pageC5a : FundPage :=
  { q := fun s =>
      if s = peSel1 then QRes.elem (some "abc")
      else if s = peSel2 then QRes.elem (some "55.3")
      else QRes.noElem
    statsSection := Except.ok false
    statsRows := Except.ok []
    pageRows := Except.ok [] }

/-- A page whose first `pe_ratio` selector yields empty text and whose
second yields "55.3" — the scenario quoted by the field-extractor claim. -/
def pageC5b : FundPage :=
  { q := fun s =>
      if s = peSel1 then QRes.elem (some "")
      else if s = peSel2 then QRes.elem (some "55.3")
      else QRes.noElem
    statsSection := Except.ok false
    statsRows := Except.ok []
    pageRows := Except.ok [] }

/-- A text containing exactly three positive keywords (bullish, buy,
strong) and one negative keyword (crash). -/
def sampleText31 : String := "bullish buy strong crash"

/-- A basic-info page on which every DOM interaction raises. -/
def pageC10 : BasicPage :=
  { priceWait := QRes.raise
    content := Except.error ()
    changeQ := QRes.raise
    pctQ := QRes.raise
    h1Q := QRes.raise }

/-- A character failing the predicate survives `dropWhile`. -/
theorem mem_dropWhile_of_neg {p : Char → Bool} {c : Char} {l : List Char}
    (h : c ∈ l) (hc : p c = false) : c ∈ l.dropWhile p := by
  induction l with
  | nil => cases h
  | cons a as ih =>
    by_cases ha : p a = true
    · rw [List.dropWhile_cons_of_pos ha]
      rcases List.mem_cons.mp h with rfl | h'
      · rw [hc] at ha; cases ha
      · exact ih h'
    · rw [List.dropWhile_cons_of_neg (by simpa using ha)]
      exact h

/-- A non-whitespace character of the input survives the Python strip. -/
theorem mem_stripList {c : Char} {l : List Char} (h : c ∈ l) (hc : isSpace c = false) :
    c ∈ stripList l := by
  unfold stripList
  exact List.mem_reverse.mpr
    (mem_dropWhile_of_neg (List.mem_reverse.mpr (mem_dropWhile_of_neg h hc)) hc)

/-- Stripping only removes characters. -/
theorem stripList_subset {l : List Char} {c : Char} (hc : c ∈ stripList l) : c ∈ l := by
  unfold stripList at hc
  have h1 := (List.dropWhile_sublist _).subset (List.mem_reverse.mp hc)
  exact (List.dropWhile_sublist _).subset (List.mem_reverse.mp h1)

/-- `dropWhile` is the identity on lists whose elements all fail the
predicate. -/
theorem dropWhile_eq_self_of {p : Char → Bool} {l : List Char}
    (h : ∀ c ∈ l, p c = false) : l.dropWhile p = l := by
  cases l with
  | nil => rfl
  | cons a as => exact List.dropWhile_cons_of_neg (by simp [h a (List.mem_cons_self a as)])

/-- Stripping is the identity on lists without whitespace. -/
theorem stripList_eq_self {l : List Char} (h : ∀ c ∈ l, isSpace c = false) :
    stripList l = l := by
  unfold stripList
  rw [dropWhile_eq_self_of h, dropWhile_eq_self_of (fun c hc => h c (List.mem_reverse.mp hc)),
    List.reverse_reverse]

/-- `takeDigits` splits its input. -/
theorem takeDigits_spec (l : List Char) : (takeDigits l).1 ++ (takeDigits l).2 = l := by
  induction l with
  | nil => rfl
  | cons c cs ih =>
    by_cases hc : c.isDigit = true
    · simp only [takeDigits, hc, if_true, List.cons_append, List.cons.injEq, true_and]
      exact ih
    · simp [takeDigits, hc]

/-- Every character of the digit run is a digit. -/
theorem takeDigits_fst_digits {l : List Char} {c : Char} (h : c ∈ (takeDigits l).1) :
    c.isDigit = true := by
  induction l with
  | nil => cases h
  | cons a as ih =>
    by_cases ha : a.isDigit = true
    · simp only [takeDigits, ha, if_true] at h
      rcases List.mem_cons.mp h with rfl | h'
      · exact ha
      · exact ih h'
    · simp [takeDigits, ha] at h

/-- The remainder of `takeDigits` is made of input characters. -/
theorem takeDigits_snd_subset {l : List Char} {c : Char} (h : c ∈ (takeDigits l).2) :
    c ∈ l := by
  have := takeDigits_spec l
  rw [← this]
  exact List.mem_append.mpr (Or.inr h)

/-- On digit-free input, the digit run is empty. -/
theorem takeDigits_fst_nil {l : List Char} (h : ∀ c ∈ l, c.isDigit = false) :
    (takeDigits l).1 = [] := by
  cases l with
  | nil => rfl
  | cons a as => simp [takeDigits, h a (List.mem_cons_self a as)]

/-- The numeric-pattern search fails on digit-free input. -/
theorem numSearch_none {l : List Char} (h : ∀ c ∈ l, c.isDigit = false) :
    numSearch l = none := by
  induction l with
  | nil => rfl
  | cons a as ih =>
    simp only [numSearch, h a (List.mem_cons_self a as), Bool.false_eq_true, if_false]
    exact ih (fun c hc => h c (List.mem_cons_of_mem a hc))

/-- A successful two-character `listStartsWith` exposes the first two
elements. -/
theorem listStartsWith_two {a b : Char} {l : List Char}
    (h : listStartsWith [a, b] l = true) : ∃ t, l = a :: b :: t := by
  match l with
  | [] => cases h
  | [c] => simp [listStartsWith] at h
  | c :: d :: t =>
    simp only [listStartsWith, Bool.and_eq_true, beq_iff_eq] at h
    obtain ⟨rfl, rfl, -⟩ := h
    exact ⟨t, rfl⟩

/-- A successful percentage-tail match forces a percent sign in the
remainder. -/
theorem pctTail_pct_mem {d1 rest : List Char} {q : ℚ} (h : pctTail d1 rest = some q) :
    '%' ∈ rest := by
  unfold pctTail at h
  by_cases hs : listStartsWith ['%', ')'] rest = true
  · obtain ⟨t, rfl⟩ := listStartsWith_two hs
    exact List.mem_cons_self _ _
  · rw [if_neg hs] at h
    split at h
    · rename_i r2
      by_cases hs2 : listStartsWith ['%', ')'] (takeDigits r2).2 = true
      · obtain ⟨t, ht⟩ := listStartsWith_two hs2
        have h1 : '%' ∈ (takeDigits r2).2 := by rw [ht]; exact List.mem_cons_self _ _
        exact List.mem_cons_of_mem _ (takeDigits_snd_subset h1)
      · rw [if_neg hs2] at h; cases h
    · cases h

/-- A percentage match at a position forces an opening parenthesis there and
a percent sign later on. -/
theorem pctMatchAt_chars {l : List Char} {q : ℚ} (h : pctMatchAt l = some q) :
    '(' ∈ l ∧ '%' ∈ l := by
  match l with
  | [] => cases h
  | c :: rest =>
    simp only [pctMatchAt] at h
    by_cases hc : c = '('
    · subst hc
      refine ⟨List.mem_cons_self _ _, List.mem_cons_of_mem _ ?_⟩
      by_cases he : (takeDigits rest).1.isEmpty = true
      · rw [if_pos rfl, if_pos he] at h; cases h
      · rw [if_pos rfl, if_neg he] at h
        exact takeDigits_snd_subset (pctTail_pct_mem h)
    · rw [if_neg hc] at h; cases h

/-- The percentage search only succeeds on inputs containing both an
opening parenthesis and a percent sign. -/
theorem pctSearch_chars {l : List Char} {q : ℚ} (h : pctSearch l = some q) :
    '(' ∈ l ∧ '%' ∈ l := by
  induction l with
  | nil => cases h
  | cons a as ih =>
    simp only [pctSearch] at h
    cases hm : pctMatchAt (a :: as) with
    | some q2 =>
      rw [hm] at h
      exact pctMatchAt_chars hm
    | none =>
      rw [hm] at h
      have := ih h
      exact ⟨List.mem_cons_of_mem a this.1, List.mem_cons_of_mem a this.2⟩

/-- The percentage match fails on digit-free input. -/
theorem pctMatchAt_none {l : List Char} (h : ∀ c ∈ l, c.isDigit = false) :
    pctMatchAt l = none := by
  match l with
  | [] => rfl
  | c :: rest =>
    simp only [pctMatchAt]
    by_cases hc : c = '('
    · rw [if_pos hc,
        if_pos (by simp [takeDigits_fst_nil (fun d hd => h d (List.mem_cons_of_mem c hd))])]
    · rw [if_neg hc]

/-- The percentage search fails on digit-free input. -/
theorem pctSearch_none {l : List Char} (h : ∀ c ∈ l, c.isDigit = false) :
    pctSearch l = none := by
  induction l with
  | nil => rfl
  | cons a as ih =>
    simp only [pctSearch, pctMatchAt_none h]
    exact ih (fun c hc => h c (List.mem_cons_of_mem a hc))

/-- The suffix-stripped text is made of input characters. -/
theorem splitSuffix_snd_subset {l : List Char} {c : Char} (h : c ∈ (splitSuffix l).2) :
    c ∈ l := by
  unfold splitSuffix at h
  split_ifs at h <;> first
    | exact (List.dropLast_sublist l).subset h
    | exact h

/-- Membership gives a positive `hasChar`. -/
theorem hasChar_of_mem {c : Char} {s : String} (h : c ∈ s.data) : hasChar c s = true := by
  unfold hasChar
  exact List.any_eq_true.mpr ⟨c, h, by simp⟩

/-- C2: the value normalizer returns the parenthesised percentage whenever
the percentage pattern matches, and handles the magnitude suffixes
K/M/B/T as multipliers: normalize("1.04 (0.51%)") = 0.51,
normalize("$2.5B") = 2.5e9, normalize("750K") = 7.5e5,
normalize("1.2T") = 1.2e12. -/
theorem C2_normalizer_algorithm :
    (∀ (t : String) (q : ℚ), pctSearch t.data = some q → parseFinancialValue t = some q) ∧
    parseFinancialValue "1.04 (0.51%)" = some (51/100) ∧
    parseFinancialValue "$2.5B" = some 2500000000 ∧
    parseFinancialValue "750K" = some 750000 ∧
    parseFinancialValue "1.2T" = some 1200000000000 := by
  refine ⟨?_, ?_, ?_, ?_, ?_⟩
  · intro t q h
    obtain ⟨hp, hpc⟩ := pctSearch_chars h
    have ht : t ≠ "" := by
      intro he; subst he; exact absurd hp (by decide)
    have hstrip : '(' ∈ stripList t.data := mem_stripList hp (by decide)
    have h1 : pyStrip t ≠ "--" := by
      intro he
      have hd : stripList t.data = "--".data := congrArg String.data he
      rw [hd] at hstrip
      exact absurd hstrip (by decide)
    have h2 : pyStrip t ≠ "N/A" := by
      intro he
      have hd : stripList t.data = "N/A".data := congrArg String.data he
      rw [hd] at hstrip
      exact absurd hstrip (by decide)
    have h3 : pyStrip t ≠ "" := by
      intro he
      have hd : stripList t.data = "".data := congrArg String.data he
      rw [hd] at hstrip
      exact absurd hstrip (by decide)
    simp only [parseFinancialValue]
    rw [if_neg (by simp [ht, h1, h2, h3]),
      if_pos (by simp [hasChar_of_mem hp, hasChar_of_mem hpc, h])]
    exact h
  all_goals
    simp [parseFinancialValue, pyStrip, stripList, hasChar, pctSearch, pctMatchAt, pctTail,
      listStartsWith, takeDigits, litQ, digitsToNat, removeFmtChars, splitSuffix, numSearch,
      numFracPart, isSpace] <;> norm_num

/-- Witness for C2: the universal conjunct applied at the concrete input
"1.04 (0.51%)" whose percentage pattern matches with group value 0.51. -/
theorem C2_normalizer_algorithm_witness :
    parseFinancialValue "1.04 (0.51%)" = some (51/100) :=
  C2_normalizer_algorithm.1 "1.04 (0.51%)" (51/100)
    (by simp [pctSearch, pctMatchAt, pctTail, listStartsWith, takeDigits, litQ,
      digitsToNat] <;> norm_num)

/-- C3: the value normalizer returns null on every placeholder string in
{"", "--", "N/A", "None"} and on every input containing no digit. -/
theorem C3_placeholders_null :
    parseFinancialValue "" = none ∧
    parseFinancialValue "--" = none ∧
    parseFinancialValue "N/A" = none ∧
    parseFinancialValue "None" = none ∧
    (∀ t : String, (∀ c ∈ t.data, c.isDigit = false) → parseFinancialValue t = none) := by
  refine ⟨by decide, by decide, by decide, by decide, ?_⟩
  intro t h
  simp only [parseFinancialValue]
  split_ifs with h1 h2
  · rfl
  · exfalso
    have hnone := pctSearch_none h
    simp [hnone] at h2
  · have hnone : numSearch (splitSuffix (stripList (removeFmtChars t.data))).2 = none := by
      apply numSearch_none
      intro c hc
      exact h c ((List.mem_filter.mp (stripList_subset (splitSuffix_snd_subset hc))).1)
    simp [hnone]

/-- Witness for C3: the no-digit conjunct applied at the concrete digit-free
input "abc". -/
theorem C3_placeholders_null_witness : parseFinancialValue "abc" = none :=
  C3_placeholders_null.2.2.2.2 "abc" (by decide)

/-- The `getLast?` element belongs to the list. -/
theorem mem_of_getLast?_eq {l : List Char} {c : Char} (h : l.getLast? = some c) : c ∈ l := by
  have hx : c ∈ l.getLast? := Option.mem_def.mpr h
  obtain ⟨hne, heq⟩ := List.mem_getLast?_eq_getLast hx
  rw [heq]
  exact List.getLast_mem hne

/-- A digit character is not whitespace. -/
theorem digit_not_space {c : Char} (h : c.isDigit = true) : isSpace c = false := by
  unfold isSpace
  by_contra hw
  rw [Bool.not_eq_false] at hw
  unfold Char.isWhitespace at hw
  simp only [Bool.or_eq_true, decide_eq_true_eq] at hw
  have hw' : c = ' ' ∨ c = '\t' ∨ c = '\x0d' ∨ c = '\n' := by tauto
  rcases hw' with rfl | rfl | rfl | rfl <;> exact absurd h (by decide)

/-- A numeric literal starts with a digit. -/
theorem isNumLit_head {l : List Char} (h : isNumLit l = true) :
    ∃ c cs, l = c :: cs ∧ c.isDigit = true := by
  unfold isNumLit at h
  rw [Bool.and_eq_true] at h
  obtain ⟨h1, -⟩ := h
  cases l with
  | nil => simp [takeDigits] at h1
  | cons c cs =>
    by_cases hc : c.isDigit = true
    · exact ⟨c, cs, rfl, hc⟩
    · simp [takeDigits, hc] at h1

/-- Every character of a numeric literal is a digit or the dot. -/
theorem isNumLit_chars {l : List Char} (h : isNumLit l = true) :
    ∀ c ∈ l, c.isDigit = true ∨ c = '.' := by
  unfold isNumLit at h
  rw [Bool.and_eq_true] at h
  obtain ⟨-, h2⟩ := h
  intro c hc
  rw [← takeDigits_spec l] at hc
  rcases List.mem_append.mp hc with hd | hr
  · exact Or.inl (takeDigits_fst_digits hd)
  · rw [Bool.or_eq_true] at h2
    rcases h2 with he | hdot
    · rw [List.isEmpty_iff] at he
      rw [he] at hr
      cases hr
    · rw [Bool.and_eq_true] at hdot
      obtain ⟨hhead, htail⟩ := hdot
      rw [decide_eq_true_eq] at hhead
      have hcons : (takeDigits l).2 = '.' :: (takeDigits l).2.tail := by
        cases hrest : (takeDigits l).2 with
        | nil => rw [hrest] at hhead; cases hhead
        | cons a as =>
          rw [hrest] at hhead
          simp only [List.head?_cons, Option.some.injEq] at hhead
          rw [hhead]
          rfl
      rw [hcons] at hr
      rcases List.mem_cons.mp hr with rfl | htl
      · exact Or.inr rfl
      · rw [List.isEmpty_iff] at htail
        have hsplit := takeDigits_spec ((takeDigits l).2.tail)
        rw [htail, List.append_nil] at hsplit
        rw [← hsplit] at htl
        exact Or.inl (takeDigits_fst_digits htl)

/-- The numeric search on a numeric literal returns its literal value. -/
theorem numSearch_numLit {l : List Char} (h : isNumLit l = true) :
    numSearch l = some (litQ (takeDigits l).1 (numFracPart (takeDigits l).2)) := by
  obtain ⟨c, cs, rfl, hc⟩ := isNumLit_head h
  simp [numSearch, hc]

/-- Literal values are non-negative: the numeric pattern captures no sign. -/
theorem litQ_nonneg (ip fp : List Char) : 0 ≤ litQ ip fp := by
  unfold litQ
  positivity

/-- C6: the numeric-extraction pattern does not capture a leading minus
sign: for a minus sign followed by any numeric literal the normalizer
returns the positive magnitude, e.g. normalize("-3.50") = +3.5. -/
theorem C6_minus_sign_dropped :
    (∀ s : String, isNumLit s.data = true →
      parseFinancialValue ("-" ++ s) =
        some (litQ (takeDigits s.data).1 (numFracPart (takeDigits s.data).2)) ∧
      0 ≤ litQ (takeDigits s.data).1 (numFracPart (takeDigits s.data).2)) ∧
    parseFinancialValue "-3.50" = some (7/2) := by
  constructor
  · intro s hs
    refine ⟨?_, litQ_nonneg _ _⟩
    have hdata : ("-" ++ s).data = '-' :: s.data := by
      rw [String.data_append]
      rfl
    have hchars : ∀ c ∈ ('-' :: s.data), c.isDigit = true ∨ c = '.' ∨ c = '-' := by
      intro c hcm
      rcases List.mem_cons.mp hcm with rfl | hcm'
      · exact Or.inr (Or.inr rfl)
      · rcases isNumLit_chars hs c hcm' with h | h
        · exact Or.inl h
        · exact Or.inr (Or.inl h)
    have hnospace : ∀ c ∈ ('-' :: s.data), isSpace c = false := by
      intro c hcm
      rcases hchars c hcm with h | rfl | rfl
      · exact digit_not_space h
      · decide
      · decide
    obtain ⟨c0, cs0, hs0, hc0⟩ := isNumLit_head hs
    have hne : ("-" ++ s) ≠ "" := by
      intro he
      have := congrArg String.data he
      rw [hdata] at this
      cases this
    have hstripeq : stripList ("-" ++ s).data = '-' :: s.data := by
      rw [hdata]
      exact stripList_eq_self hnospace
    have hps1 : pyStrip ("-" ++ s) ≠ "--" := by
      intro he
      have hd := congrArg String.data he
      unfold pyStrip at hd
      simp only at hd
      rw [hstripeq] at hd
      have : s.data = ['-'] := by
        have := congrArg List.tail hd
        simpa using this
      rw [hs0] at this
      have hc0' : c0 = '-' := by
        have := congrArg List.head? this
        simpa using this
      rw [hc0'] at hc0
      exact absurd hc0 (by decide)
    have hps2 : pyStrip ("-" ++ s) ≠ "N/A" := by
      intro he
      have hd := congrArg String.data he
      unfold pyStrip at hd
      simp only at hd
      rw [hstripeq] at hd
      have : '-' = 'N' := by
        have := congrArg List.head? hd
        simpa using this
      cases this
    have hps3 : pyStrip ("-" ++ s) ≠ "" := by
      intro he
      have hd := congrArg String.data he
      unfold pyStrip at hd
      simp only at hd
      rw [hstripeq] at hd
      cases hd
    have hnoparen : hasChar '(' ("-" ++ s) = false := by
      unfold hasChar
      rw [List.any_eq_false]
      intro c hcm
      rw [hdata] at hcm
      rcases hchars c hcm with h | rfl | rfl
      · intro hbeq
        rw [beq_iff_eq] at hbeq
        rw [hbeq] at h
        exact absurd h (by decide)
      · decide
      · decide
    have hremove : removeFmtChars ('-' :: s.data) = '-' :: s.data := by
      apply List.filter_eq_self.mpr
      intro c hcm
      rcases hchars c hcm with h | rfl | rfl
      · simp only [Bool.not_eq_true']
        rw [Bool.or_eq_false_iff, Bool.or_eq_false_iff]
        refine ⟨⟨?_, ?_⟩, ?_⟩ <;>
          (rw [beq_eq_false_iff_ne]; intro he; rw [he] at h; exact absurd h (by decide))
      · decide
      · decide
    have hlastmem : ∀ ch, ('-' :: s.data).getLast? = some ch →
        ch.isDigit = true ∨ ch = '.' ∨ ch = '-' := by
      intro ch hch
      exact hchars ch (mem_of_getLast?_eq hch)
    have hsuffix : splitSuffix ('-' :: s.data) = (1, '-' :: s.data) := by
      unfold splitSuffix
      rw [if_neg, if_neg, if_neg, if_neg] <;>
        (intro hch
         rcases hlastmem _ hch with h | h | h
         · exact absurd h (by decide)
         · cases h
         · cases h)
    simp only [parseFinancialValue]
    rw [if_neg (by simp [hne, hps1, hps2, hps3]), if_neg (by simp [hnoparen])]
    have hstrip2 : stripList ('-' :: s.data) = '-' :: s.data := stripList_eq_self hnospace
    simp only [hdata, hremove, hstrip2, hsuffix]
    have hnum : numSearch ('-' :: s.data) = numSearch s.data := by simp [numSearch]
    rw [hnum, numSearch_numLit hs]
    simp [mul_one]
  · simp [parseFinancialValue, pyStrip, stripList, hasChar, pctSearch, pctMatchAt, pctTail,
      listStartsWith, takeDigits, litQ, digitsToNat, removeFmtChars, splitSuffix, numSearch,
      numFracPart, isSpace] <;> norm_num

/-- Witness for C6: the universal conjunct applied at the concrete numeric
literal "3.50". -/
theorem C6_minus_sign_dropped_witness :
    parseFinancialValue ("-" ++ "3.50") =
      some (litQ (takeDigits ("3.50" : String).data).1
        (numFracPart (takeDigits ("3.50" : String).data).2)) ∧
    0 ≤ litQ (takeDigits ("3.50" : String).data).1
      (numFracPart (takeDigits ("3.50" : String).data).2) :=
  C6_minus_sign_dropped.1 "3.50" (by decide)

/-- C4 counterexample: on the input "0 - 130.00" both sides parse
successfully (to 0.0 and 130.0), yet no range object is constructed — the
code gates construction on Python truthiness (`if low and high`), which a
parsed 0.0 fails, refuting "constructs a range if and only if both sides
parse successfully". -/
theorem C4_range_counterexample :
    parseFinancialValue "0" = some 0 ∧
    parseFinancialValue "130.00" = some 130 ∧
    parseRangeText (some "0 - 130.00") = none := by
  refine ⟨?_, ?_, ?_⟩ <;>
    simp [parseRangeText, parseFinancialValue, pyStrip, stripList, hasChar, pctSearch,
      pctMatchAt, pctTail, listStartsWith, takeDigits, litQ, digitsToNat, removeFmtChars,
      splitSuffix, numSearch, numFracPart, isSpace, subOcc, splitOnChar] <;> norm_num

/-- C4 amended: the range parser splits the stripped text on every hyphen
and requires exactly two parts, normalises both sides, and constructs the
range exactly when both sides parse to a truthy (non-null, non-zero) value;
parse_range("120.00 - 130.00") = (low 120, high 130), and a missing hyphen
or an unparseable side yields no range. -/
theorem C4_range_parser_amended :
    (∀ (t p0 p1 : String) (lo hi : ℚ),
      t ≠ "" → subOcc ['-'] t.data = true →
      (splitOnChar '-' (pyStrip t).data).map (fun l => String.mk l) = [p0, p1] →
      parseFinancialValue (pyStrip p0) = some lo → lo ≠ 0 →
      parseFinancialValue (pyStrip p1) = some hi → hi ≠ 0 →
      parseRangeText (some t) = some { high := hi, low := lo }) ∧
    (∀ t : String, subOcc ['-'] t.data = false → parseRangeText (some t) = none) ∧
    (∀ (t p0 p1 : String),
      (splitOnChar '-' (pyStrip t).data).map (fun l => String.mk l) = [p0, p1] →
      (parseFinancialValue (pyStrip p0) = none ∨ parseFinancialValue (pyStrip p1) = none) →
      parseRangeText (some t) = none) ∧
    parseRangeText (some "120.00 - 130.00") = some { high := 130, low := 120 } := by
  refine ⟨?_, ?_, ?_, ?_⟩
  · intro t p0 p1 lo hi ht hsub hsplit hlo hlo0 hhi hhi0
    simp only [parseRangeText]
    rw [if_pos (by simp [ht, hsub]), hsplit]
    simp [hlo, hhi, hlo0, hhi0]
  · intro t hsub
    simp only [parseRangeText]
    rw [if_neg (by simp [hsub])]
  · intro t p0 p1 hsplit hfail
    simp only [parseRangeText]
    by_cases hcond : (t != "" && subOcc ['-'] t.data) = true
    · rw [if_pos hcond, hsplit]
      rcases hfail with h | h
      · simp [h]
      · cases hx : parseFinancialValue (pyStrip p0) <;> simp [hx, h]
    · rw [if_neg hcond]
  · simp [parseRangeText, parseFinancialValue, pyStrip, stripList, hasChar, pctSearch,
      pctMatchAt, pctTail, listStartsWith, takeDigits, litQ, digitsToNat, removeFmtChars,
      splitSuffix, numSearch, numFracPart, isSpace, subOcc, splitOnChar] <;> norm_num

/-- Witness for C4 amended: the construction conjunct applied at the
concrete text "120.00 - 130.00". -/
theorem C4_range_parser_amended_witness :
    parseRangeText (some "120.00 - 130.00") = some { high := 130, low := 120 } :=
  C4_range_parser_amended.1 "120.00 - 130.00" "120.00 " " 130.00" 120 130
    (by decide) (by decide) (by decide)
    (by simp [parseFinancialValue, pyStrip, stripList, hasChar, pctSearch, pctMatchAt,
      pctTail, listStartsWith, takeDigits, litQ, digitsToNat, removeFmtChars, splitSuffix,
      numSearch, numFracPart, isSpace] <;> norm_num)
    (by norm_num)
    (by simp [parseFinancialValue, pyStrip, stripList, hasChar, pctSearch, pctMatchAt,
      pctTail, listStartsWith, takeDigits, litQ, digitsToNat, removeFmtChars, splitSuffix,
      numSearch, numFracPart, isSpace] <;> norm_num)
    (by norm_num)

/-- Invariant: no dict entry holds Python `None`. -/
def NoneFree (d : PyDict) : Prop := ∀ kv ∈ d, kv.2 ≠ PyObj.pynone

/-- Dict assignment with a non-`None` value preserves the invariant. -/
theorem dictSet_noneFree {d : PyDict} {k : String} {v : PyObj}
    (hd : NoneFree d) (hv : v ≠ PyObj.pynone) : NoneFree (dictSet d k v) := by
  intro kv hkv
  unfold dictSet at hkv
  split_ifs at hkv
  · rcases List.mem_map.mp hkv with ⟨kv0, hkv0, heq⟩
    by_cases hk : (kv0.1 == k) = true
    · rw [if_pos hk] at heq
      rw [← heq]
      exact hv
    · rw [if_neg hk] at heq
      rw [← heq]
      exact hd kv0 hkv0
  · rcases List.mem_append.mp hkv with h | h
    · exact hd kv h
    · have : kv = (k, v) := by simpa using h
      rw [this]
      exact hv

/-- The selector loop never stores `None`. -/
theorem primStep_noneFree (p : FundPage) (m : String) :
    ∀ (sels : List String) (d : PyDict), NoneFree d → NoneFree (primStep p m d sels) := by
  intro sels
  induction sels with
  | nil => intro d hd; exact hd
  | cons s rest ih =>
    intro d hd
    cases hq : p.q s with
    | raise => simp only [primStep, hq]; exact ih d hd
    | noElem => simp only [primStep, hq]; exact ih d hd
    | elem ot =>
      cases ot with
      | none => simp only [primStep, hq]; exact ih d hd
      | some t =>
        simp only [primStep, hq]
        by_cases hcond : (t != "" && !placeholders4.contains (pyStrip t)) = true
        · rw [if_pos hcond]
          by_cases hm : stringMetrics.contains m = true
          · rw [if_pos hm]
            exact dictSet_noneFree hd (by intro h; cases h)
          · rw [if_neg hm]
            cases hp : parseFinancialValue (pyStrip t) with
            | some v =>
              simp only [hp]
              exact dictSet_noneFree hd (by intro h; cases h)
            | none =>
              simp only [hp]
              exact ih d hd
        · rw [if_neg hcond]
          exact ih d hd

/-- Fold preservation of an invariant. -/
theorem foldl_preserve {α β : Type} {P : β → Prop} {f : β → α → β}
    (hf : ∀ b a, P b → P (f b a)) : ∀ (l : List α) (b : β), P b → P (l.foldl f b) := by
  intro l
  induction l with
  | nil => intro b hb; exact hb
  | cons a as ih => intro b hb; exact ih _ (hf b a hb)

/-- After the whole selector phase, no entry is `None`. -/
theorem selectorPhase_noneFree (p : FundPage) : NoneFree (selectorPhase p) := by
  unfold selectorPhase
  apply foldl_preserve
  · intro d ms hd
    by_cases hc : (dictGet (primStep p ms.1 d ms.2) ms.1 = none ∨
        dictGet (primStep p ms.1 d ms.2) ms.1 = some PyObj.pynone)
    · rw [if_pos (by simpa using hc)]
      exact primStep_noneFree p ms.1 _ _ (primStep_noneFree p ms.1 _ _ hd)
    · rw [if_neg (by simpa using hc)]
      exact primStep_noneFree p ms.1 _ _ hd
  · intro kv hkv
    cases hkv

/-- A `None`-free dict yields an empty `missing_metrics` list. -/
theorem missingMetrics_nil {d : PyDict} (hd : NoneFree d) : missingMetrics d = [] := by
  unfold missingMetrics
  have : d.filter (fun kv => kv.2 == PyObj.pynone) = [] := by
    rw [List.filter_eq_nil_iff]
    intro kv hkv
    simp only [beq_iff_eq]
    exact hd kv hkv
  rw [this]
  rfl

/-- On a `None`-free dict, the table-fallback phase is the identity. -/
theorem tablePhase_of_noneFree (p : FundPage) {d : PyDict} (hd : NoneFree d) :
    tablePhase p d = d := by
  unfold tablePhase
  rw [missingMetrics_nil hd]
  rfl

/-- C1 (code bug): the table fallback scanner never runs. `missing_metrics`
is computed as the dict keys with value `None`, but no insertion ever stores
`None`, so it is empty for every page and the whole row scan is dead code.
On the concrete page whose selectors all miss and whose statistics section
contains the row ["P/E Ratio (TTM)", "18.4"], the final fundamentals have
no `pe_ratio` at all, although the row is present and its value parses to
18.4 — contradicting the claimed fallback extraction. -/
theorem C1_table_fallback_scanner_dead :
    (∀ p : FundPage, missingMetrics (selectorPhase p) = []) ∧
    (∀ p : FundPage, extractFundDict p = selectorPhase p) ∧
    dictGet (extractFundDict pageC1) "pe_ratio" = none ∧
    pageC1.statsRows = Except.ok [RowRes.cells [some "P/E Ratio (TTM)", some "18.4"]] ∧
    parseFinancialValue "18.4" = some (92/5) := by
  have hext : ∀ p : FundPage, extractFundDict p = selectorPhase p := by
    intro p
    unfold extractFundDict
    exact tablePhase_of_noneFree p (selectorPhase_noneFree p)
  refine ⟨fun p => missingMetrics_nil (selectorPhase_noneFree p), hext, ?_, rfl, ?_⟩
  · rw [hext]
    decide
  · simp [parseFinancialValue, pyStrip, stripList, hasChar, pctSearch, pctMatchAt, pctTail,
      listStartsWith, takeDigits, litQ, digitsToNat, removeFmtChars, splitSuffix, numSearch,
      numFracPart, isSpace] <;> norm_num

/-- C5 counterexample: on a page whose first `pe_ratio` selector yields the
non-empty, non-placeholder text "abc" (which does not parse) and whose
second yields "55.3", the first valid text content is "abc", yet the code
does not stop there: it stores 55.3 from the second selector. The extractor
therefore does not return "the first text content that is non-empty and not
a placeholder". -/
theorem C5_first_hit_counterexample :
    specFirstValidText pageC5a peSelList = some "abc" ∧
    parseFinancialValue "abc" = none ∧
    dictGet (primStep pageC5a "pe_ratio" [] peSelList) "pe_ratio" =
      some (PyObj.num (553/10)) := by
  refine ⟨by decide, by decide, ?_⟩
  have hq1 : pageC5a.q peSel1 = QRes.elem (some "abc") := by
    simp [pageC5a]
  have hq2 : pageC5a.q peSel2 = QRes.elem (some "55.3") := by
    simp +decide [pageC5a]
  have hab : parseFinancialValue (pyStrip "abc") = none := by decide
  have h55 : parseFinancialValue (pyStrip "55.3") = some (553/10) := by
    simp [parseFinancialValue, pyStrip, stripList, hasChar, pctSearch, pctMatchAt, pctTail,
      listStartsWith, takeDigits, litQ, digitsToNat, removeFmtChars, splitSuffix, numSearch,
      numFracPart, isSpace] <;> norm_num
  simp only [peSelList, primStep, hq1, hq2]
  simp +decide [hab, h55, dictSet, dictGet]

/-- C5 amended: the selector loop tries the list strictly in order, but for
a numeric metric it stops at the first hit that is non-empty,
non-placeholder *and parses to a non-null value* (an unparseable hit lets
the loop continue); equivalently it stores the first successful
`numericHit` over the list. In the claimed scenario (first selector empty,
second "55.3") the result is 55.3. -/
theorem C5_selector_order_amended :
    (∀ (p : FundPage) (m : String) (d : PyDict) (sels : List String),
      stringMetrics.contains m = false →
      primStep p m d sels =
        (match sels.findSome? (numericHit p) with
         | some v => dictSet d m (PyObj.num v)
         | none => d)) ∧
    dictGet (primStep pageC5b "pe_ratio" [] peSelList) "pe_ratio" =
      some (PyObj.num (553/10)) := by
  constructor
  · intro p m d sels hm
    induction sels generalizing d with
    | nil => rfl
    | cons s rest ih =>
      rw [List.findSome?_cons]
      cases hq : p.q s with
      | raise =>
        simp only [primStep, hq, numericHit]
        exact ih d
      | noElem =>
        simp only [primStep, hq, numericHit]
        exact ih d
      | elem ot =>
        cases ot with
        | none =>
          simp only [primStep, hq, numericHit]
          exact ih d
        | some t =>
          simp only [primStep, hq, numericHit]
          by_cases hcond : (t != "" && !placeholders4.contains (pyStrip t)) = true
          · rw [if_pos hcond, if_pos hcond,
              if_neg (fun hcontains => by rw [hm] at hcontains; cases hcontains)]
            cases hp : parseFinancialValue (pyStrip t) with
            | some v => simp only [hp]
            | none =>
              simp only [hp]
              exact ih d
          · rw [if_neg hcond, if_neg hcond]
            exact ih d
  · have hq1 : pageC5b.q peSel1 = QRes.elem (some "") := by
      simp [pageC5b]
    have hq2 : pageC5b.q peSel2 = QRes.elem (some "55.3") := by
      simp +decide [pageC5b]
    have h55 : parseFinancialValue (pyStrip "55.3") = some (553/10) := by
      simp [parseFinancialValue, pyStrip, stripList, hasChar, pctSearch, pctMatchAt, pctTail,
        listStartsWith, takeDigits, litQ, digitsToNat, removeFmtChars, splitSuffix, numSearch,
        numFracPart, isSpace] <;> norm_num
    simp only [peSelList, primStep, hq1, hq2]
    simp +decide [h55, dictSet, dictGet]

/-- Witness for C5 amended: the characterization applied at the concrete
page and selector list of the claim's scenario. -/
theorem C5_selector_order_amended_witness :
    primStep pageC5b "pe_ratio" [] peSelList =
      (match peSelList.findSome? (numericHit pageC5b) with
       | some v => dictSet [] "pe_ratio" (PyObj.num v)
       | none => []) :=
  C5_selector_order_amended.1 pageC5b "pe_ratio" [] peSelList (by decide)

/-- C7: the keyword fallback is deterministic: sentiment is the majority
label over the keyword counts (ties neutral) and confidence is
min(0.8, 0.5 + 0.1 × |pos − neg|) when a majority exists, 0.5 on a tie; the
sample text with 3 positive and 1 negative keyword scores
("positive", 0.7). -/
theorem C7_keyword_sentiment_fallback :
    (∀ text : String,
      (parseSentimentFallback text).sentiment =
        (if keywordCount positiveWords (pyLower text) >
            keywordCount negativeWords (pyLower text) then "positive"
         else if keywordCount negativeWords (pyLower text) >
            keywordCount positiveWords (pyLower text) then "negative"
         else "neutral") ∧
      (parseSentimentFallback text).confidence =
        (if keywordCount positiveWords (pyLower text) =
            keywordCount negativeWords (pyLower text) then 1/2
         else min (4/5)
            (1/2 + |(keywordCount positiveWords (pyLower text) : ℚ) -
              (keywordCount negativeWords (pyLower text) : ℚ)| * (1/10)))) ∧
    keywordCount positiveWords (pyLower sampleText31) = 3 ∧
    keywordCount negativeWords (pyLower sampleText31) = 1 ∧
    (parseSentimentFallback sampleText31).sentiment = "positive" ∧
    (parseSentimentFallback sampleText31).confidence = 7/10 := by
  have hp3 : keywordCount positiveWords (pyLower sampleText31) = 3 := by decide
  have hn1 : keywordCount negativeWords (pyLower sampleText31) = 1 := by decide
  refine ⟨?_, hp3, hn1, ?_, ?_⟩
  · intro text
    rcases Nat.lt_trichotomy (keywordCount negativeWords (pyLower text))
        (keywordCount positiveWords (pyLower text)) with h | h | h
    · have hne : keywordCount positiveWords (pyLower text) ≠
          keywordCount negativeWords (pyLower text) := by omega
      have habs : |(keywordCount positiveWords (pyLower text) : ℚ) -
          (keywordCount negativeWords (pyLower text) : ℚ)| =
          (keywordCount positiveWords (pyLower text) : ℚ) -
            (keywordCount negativeWords (pyLower text) : ℚ) := by
        apply abs_of_pos
        rw [sub_pos]
        exact_mod_cast h
      constructor
      · simp [parseSentimentFallback, h]
      · simp only [parseSentimentFallback, h, if_true, hne, if_false, habs]
        norm_num
    · have h1 : ¬(keywordCount negativeWords (pyLower text) <
          keywordCount positiveWords (pyLower text)) := by omega
      have h2 : ¬(keywordCount positiveWords (pyLower text) <
          keywordCount negativeWords (pyLower text)) := by omega
      constructor
      · simp [parseSentimentFallback, h1, h2]
      · simp only [parseSentimentFallback, h1, h2, if_false, h, if_true]
        norm_num
    · have h1 : ¬(keywordCount negativeWords (pyLower text) <
          keywordCount positiveWords (pyLower text)) := by omega
      have hne : keywordCount positiveWords (pyLower text) ≠
          keywordCount negativeWords (pyLower text) := by omega
      have habs : |(keywordCount positiveWords (pyLower text) : ℚ) -
          (keywordCount negativeWords (pyLower text) : ℚ)| =
          (keywordCount negativeWords (pyLower text) : ℚ) -
            (keywordCount positiveWords (pyLower text) : ℚ) := by
        rw [abs_sub_comm]
        apply abs_of_pos
        rw [sub_pos]
        exact_mod_cast h
      constructor
      · simp [parseSentimentFallback, h1, h]
      · simp only [parseSentimentFallback, h1, if_false, h, if_true, hne, habs]
        norm_num
  · simp [parseSentimentFallback, hp3, hn1]
  · simp only [parseSentimentFallback, hp3, hn1]
    norm_num

/-- The first pass never grows the item list beyond five. -/
theorem collectFirst_length_le : ∀ (arts : List ArtRes) (items : List NewsL),
    items.length ≤ 5 → (collectFirst arts items).length ≤ 5 := by
  intro arts
  induction arts with
  | nil => intro items h; exact h
  | cons a rest ih =>
    intro items h
    simp only [collectFirst]
    split
    · exact h
    · rename_i h5
      split
      · split
        · apply ih
          simp only [List.length_append, List.length_cons, List.length_nil]
          omega
        · exact ih items h
      · exact ih items h

/-- The retry pass keeps the five-item bound, extends the incoming list,
and never appends an item whose title matches an earlier one. -/
theorem collectRetry_spec : ∀ (arts : List ArtRes) (items : List NewsL),
    items.length ≤ 5 →
    (collectRetry arts items).length ≤ 5 ∧
      (collectRetry arts items).take items.length = items ∧
      FreshFrom items ((collectRetry arts items).drop items.length) := by
  intro arts
  induction arts with
  | nil =>
    intro items h
    refine ⟨h, ?_, ?_⟩
    · simp only [collectRetry, List.take_length]
    · simp only [collectRetry, List.drop_length]
      exact trivial
  | cons a rest ih =>
    intro items h
    simp only [collectRetry]
    split
    · refine ⟨h, List.take_length _, ?_⟩
      rw [List.drop_length]
      exact trivial
    · rename_i h5
      split
      · rename_i t hr
        split
        · split
          · exact ih items h
          · rename_i hcond hdup
            have hlen1 : (items ++ [(⟨pyStrip t, resolveUrl hr⟩ : NewsL)]).length
                = items.length + 1 := by simp
            have hlen : (items ++ [(⟨pyStrip t, resolveUrl hr⟩ : NewsL)]).length ≤ 5 := by
              rw [hlen1]
              omega
            obtain ⟨hl, ht, hf⟩ := ih _ hlen
            rw [hlen1] at ht hf
            have hr' := List.take_append_drop (items.length + 1)
              (collectRetry rest (items ++ [(⟨pyStrip t, resolveUrl hr⟩ : NewsL)]))
            rw [ht] at hr'
            refine ⟨hl, ?_, ?_⟩
            · rw [← hr', List.append_assoc, List.take_left]
            · rw [← hr', List.append_assoc, List.drop_left]
              refine ⟨?_, hf⟩
              intro y hy
              have hdup2 : (items.any fun item => item.title == pyStrip t) = false := by
                simpa using hdup
              have := List.any_eq_false.mp hdup2 y hy
              simpa using this
        · exact ih items h
      · exact ih items h

/-- C8: the news collector returns at most five items for every pair of
article lists, the first-pass items form a prefix of the final result, and
every retry-pass item has a title different from every item collected
before it. -/
theorem C8_news_collector_bounded :
    ∀ (arts1 arts2 : List ArtRes),
      (extractNews arts1 arts2).length ≤ 5 ∧
      (extractNews arts1 arts2).take (collectFirst arts1 []).length = collectFirst arts1 [] ∧
      FreshFrom (collectFirst arts1 [])
        ((extractNews arts1 arts2).drop (collectFirst arts1 []).length) := by
  intro arts1 arts2
  cases arts1 with
  | nil =>
    refine ⟨by simp [extractNews], ?_, ?_⟩
    · simp [extractNews, collectFirst]
    · simp only [extractNews, collectFirst, List.length_nil, List.drop_nil]
      exact trivial
  | cons a as =>
    simp only [extractNews]
    have h0 : (collectFirst (a :: as) []).length ≤ 5 :=
      collectFirst_length_le _ [] (by simp)
    by_cases hlt : (collectFirst (a :: as) []).length < 5
    · rw [if_pos hlt]
      exact collectRetry_spec arts2 _ h0
    · rw [if_neg hlt]
      refine ⟨h0, List.take_length _, ?_⟩
      rw [List.drop_length]
      exact trivial

/-- C9: the position-in-52-week-range computation never raises: the
division is only taken when high > low (so the divisor is non-zero), the
result is 0 otherwise, and in particular a range with high = low yields 0
instead of a ZeroDivisionError. -/
theorem C9_position_division_guarded :
    (∀ (price : ℚ) (r : FiftyTwoWeekRange),
      positionInRange price r =
        Except.ok (if r.low < r.high then (price - r.low) / (r.high - r.low) else 0)) ∧
    (∀ (price v : ℚ), positionInRange price { high := v, low := v } = Except.ok 0) ∧
    (∀ (price : ℚ) (r : FiftyTwoWeekRange) (e : PyErr),
      positionInRange price r ≠ Except.error e) := by
  have hmain : ∀ (price : ℚ) (r : FiftyTwoWeekRange),
      positionInRange price r =
        Except.ok (if r.low < r.high then (price - r.low) / (r.high - r.low) else 0) := by
    intro price r
    unfold positionInRange pyDiv
    by_cases hlt : r.high > r.low
    · rw [if_pos hlt, if_neg (sub_ne_zero.mpr (ne_of_gt hlt)), if_pos hlt]
    · rw [if_neg hlt, if_neg hlt]
  refine ⟨hmain, ?_, ?_⟩
  · intro price v
    rw [hmain]
    simp
  · intro price r e
    rw [hmain]
    intro hcontr
    cases hcontr

/-- Witness for C9 at concrete inputs: price 1 inside the range (0, 2)
yields position 1/2, and the degenerate range (3, 3) yields 0. -/
theorem C9_position_division_guarded_witness :
    positionInRange 1 { high := 2, low := 0 } = Except.ok (1/2) ∧
    positionInRange 1 { high := 3, low := 3 } = Except.ok 0 := by
  constructor
  · rw [C9_position_division_guarded.1]
    norm_num
  · exact C9_position_division_guarded.2.1 1 3

/-- C10: basic price extraction is total: for every page-interaction
outcome the result is the inner body's answer or the default record — never
a raise — the currency is always "USD", all numeric fields are populated,
a page where both the price wait and the content call raise yields the
all-zero default, and a raise in the change block zeroes both change
fields. -/
theorem C10_basic_info_total :
    ∀ (p : BasicPage) (ticker : String),
      (extractBasicInfoInner p ticker = Except.ok (extractBasicInfo p ticker) ∨
        extractBasicInfo p ticker = defaultBasic ticker) ∧
      (extractBasicInfo p ticker).price.currency = "USD" ∧
      (p.priceWait = QRes.raise → p.content = Except.error () →
        extractBasicInfo p ticker = defaultBasic ticker) ∧
      (p.changeQ = QRes.raise →
        (extractBasicInfo p ticker).price.change = 0 ∧
          (extractBasicInfo p ticker).price.change_percent = 0) := by
  intro p ticker
  refine ⟨?_, ?_, ?_, ?_⟩
  · cases hinner : extractBasicInfoInner p ticker with
    | ok r =>
      left
      unfold extractBasicInfo
      rw [hinner]
    | error e =>
      right
      unfold extractBasicInfo
      rw [hinner]
  · unfold extractBasicInfo extractBasicInfoInner
    cases hpv : priceVal p with
    | error e => rfl
    | ok cp =>
      cases hcp : (changeBlock p.changeQ p.pctQ).2 with
      | none => simp [hcp, defaultBasic]
      | some v => simp [hcp]
  · intro hw hc
    unfold extractBasicInfo extractBasicInfoInner priceVal
    rw [hw, hc]
  · intro hch
    have hblock : changeBlock p.changeQ p.pctQ = (some 0, some 0) := by
      unfold changeBlock
      rw [hch]
      cases p.pctQ with
      | raise => rfl
      | noElem => rfl
      | elem ot => cases ot <;> rfl
    unfold extractBasicInfo extractBasicInfoInner
    cases hpv : priceVal p with
    | error e => exact ⟨rfl, rfl⟩
    | ok cp =>
      simp only [hblock]
      refine ⟨?_, ?_⟩ <;> simp [orZero]

/-- Witness for C10: the theorem applied at the all-raising page, where the
default record with zeroes is returned. -/
theorem C10_basic_info_total_witness :
    extractBasicInfo pageC10 "AAPL" = defaultBasic "AAPL" ∧
    (extractBasicInfo pageC10 "AAPL").price.change = 0 ∧
    (extractBasicInfo pageC10 "AAPL").price.change_percent = 0 ∧
    (extractBasicInfo pageC10 "AAPL").price.currency = "USD" :=
  ⟨(C10_basic_info_total pageC10 "AAPL").2.2.1 rfl rfl,
   ((C10_basic_info_total pageC10 "AAPL").2.2.2 rfl).1,
   ((C10_basic_info_total pageC10 "AAPL").2.2.2 rfl).2,
   (C10_basic_info_total pageC10 "AAPL").2.1⟩
